import Mathlib

/-!
Verification of the status-bar incremental rendering engine of the `ranger`
file browser (`src/ranger/gui/widgets/statusbar.py`), as a shallow embedding.

Python objects become Lean structures; exception-based "field unavailable"
control flow becomes `Option`; Python truthiness of the relevant values
(`None`, empty string, `0`, empty list are falsy) is made explicit by the
`strTruthy` / `duTruthy` / `resultTruthy` helpers.  Wall-clock time is an
explicit `Int` parameter threaded through `draw` and `notify`.  Terminal
output is observed through a list of `DrawEvent`s returned by `draw`.
-/

/-- The subset of `os.stat` fields read by the status bar. -/
structure Stat where
  st_uid : Nat
  st_gid : Nat
  st_nlink : Nat
  st_mtime : Int
deriving DecidableEq, Repr

/-- The current file object `env.cf`.  `ident` stands for the Python object
identity (file objects are compared by identity, not content); `stat` is
`none` when accessing `cf.stat.st_mtime` would raise. -/
structure CFile where
  ident : Nat
  stat : Option Stat
deriving DecidableEq, Repr

/-- One styled text fragment added to a `Bar`.  Modelled from the spec:
`ranger.gui.bar.Bar` is not under `src/`; per the spec's data model a Bar
holds two ordered sequences of fragments, each `{text, styleTags}`, and
`add(text, *tags)` appends one fragment. -/
structure Fragment where
  text : String
  tags : List String
deriving DecidableEq, Repr

/-- `bar.left.add_space()`: a single-blank fragment with the "space" tag. -/
def spaceFrag : Fragment := ⟨" ", ["space"]⟩

/-- The `Message` class: `elapse` is the absolute expiry time computed at
creation (`time() + duration`). -/
structure Message where
  text : String
  bad : Bool
  elapse : Int
deriving DecidableEq, Repr

/-- `Message.__init__(text, duration, bad)` called at wall-clock time `now`:
stores the text and severity and sets `elapse = now + duration`. -/
def mkMessage (text : String) (duration : Int) (bad : Bool) (now : Int) : Message :=
  ⟨text, bad, now + duration⟩

/-- `Message.is_alive()`: true while `time() <= self.elapse`. -/
def Message.is_alive (m : Message) (now : Int) : Bool :=
  decide (now ≤ m.elapse)

/-- One entry of a directory listing, as read by `_get_right_part`. -/
structure FileItem where
  size : Nat
  is_file : Bool
  marked : Bool
deriving DecidableEq, Repr

/-- The "pointed at" file object consumed by `_get_left_part`.
`stat = none` models both `target.stat` raising and returning `None`;
`permissions` models `target.get_permission_string()`; `fexists` models the
`target.exists` attribute; `infostring` is falsy iff empty. -/
structure FsTarget where
  stat : Option Stat
  permissions : String
  is_link : Bool
  fexists : Bool
  readlink : String
  infostring : String
deriving DecidableEq, Repr

/-- The column's directory target consumed by both `_get_left_part` (for
`pointed_obj`) and `_get_right_part`.  `files = none` models a not yet
loaded listing.  `len(target)` for a directory is the length of its
listing. -/
structure DirTarget where
  accessible : Bool
  is_directory : Bool
  files : Option (List FileItem)
  scroll_begin : Nat
  disk_usage : Nat
  mount_path : String
  pointed_obj : Option FsTarget
deriving DecidableEq, Repr

/-- The navigation column handed to the status bar: an optional target and
the column height `hei`. -/
structure Column where
  target : Option DirTarget
  hei : Nat
deriving DecidableEq, Repr

/-- The mutable state of one `StatusBar` widget: the overlay slots
(`hint`, `msg`), the previous-frame fingerprint fields (`old_cf` stores the
identity of the last seen current file, `old_mtime` / `old_du` / `old_hint`
the last seen values), and the cached composed `result` plus the
`need_redraw` flag inherited from `Widget`. -/
structure StatusBar where
  hint : Option String
  old_hint : Option String
  msg : Option Message
  old_cf : Option Nat
  old_mtime : Option Int
  old_du : Option Nat
  result : Option (List Fragment)
  need_redraw : Bool
deriving DecidableEq, Repr

/-- The class-attribute initial state of a `StatusBar`
(`hint = msg = old_cf = old_mtime = old_du = old_hint = result = None`);
`need_redraw` starts false. -/
def StatusBar.init : StatusBar :=
  ⟨none, none, none, none, none, none, none, false⟩

/-- The external inputs one `draw()` call observes: the current file
`env.cf`, the working directory's `env.cwd.disk_usage` (an integer, falsy
iff 0), the widget width `wid`, and `bar` — the fragment list that
`_calc_bar` would compose from the current environment if invoked. -/
structure Env where
  cf : Option CFile
  du : Nat
  wid : Nat
  bar : List Fragment
deriving DecidableEq, Repr

/-- Python truthiness of an optional string: truthy iff present and
non-empty (`None` and `""` are falsy). -/
def strTruthy : Option String → Bool
  | some s => decide (s ≠ "")
  | none => false

/-- Python truthiness of the stored disk-usage value: truthy iff present and
non-zero (`None` and `0` are falsy). -/
def duTruthy : Option Nat → Bool
  | some n => decide (n ≠ 0)
  | none => false

/-- Python truthiness of the cached result: truthy iff present and a
non-empty fragment list (`None` and `[]` are falsy). -/
def resultTruthy : Option (List Fragment) → Bool
  | some l => decide (l ≠ [])
  | none => false

/-- Identity of the current file object, for the `old_cf != env.cf`
comparison (`None` compares unequal to every object). -/
def cfId : Option CFile → Option Nat :=
  Option.map CFile.ident

/-- Lines 81-84 of `draw()`: `try: mtime = self.env.cf.stat.st_mtime
except: mtime = -1`.  Both a missing current file and a failing `stat`
yield the sentinel `-1`. -/
def observedMtime : Option CFile → Int
  | some c =>
    match c.stat with
    | some st => st.st_mtime
    | none => -1
  | none => -1

/-- The observable effects of one `draw()` call: the hint overlay was
painted (with these styled segments), the message overlay was painted, or
the bar was recomposed by `_calc_bar` and printed by `_print_result`. -/
inductive DrawEvent
  | drewHint (segs : List (Bool × String))
  | drewMessage (m : Message)
  | redrewBar (bar : List Fragment)
deriving DecidableEq, Repr

/-- `StatusBar.notify(text, duration, bad)` at wall-clock time `now`:
unconditionally overwrites `self.msg` with a fresh `Message`. -/
def StatusBar.notify (s : StatusBar) (now : Int) (text : String)
    (duration : Int) (bad : Bool) : StatusBar :=
  { s with msg := some (mkMessage text duration bad now) }

/-- Python `str.split` with the two-character separator `'//'`, over the
character list: greedy left-to-right, non-overlapping, keeps empty
segments, and yields one empty segment on the empty string. -/
def splitSlashes : List Char → List (List Char)
  | [] => [[]]
  | '/' :: '/' :: rest => [] :: splitSlashes rest
  | c :: rest =>
    match splitSlashes rest with
    | [] => [[c]]
    | seg :: segs => (c :: seg) :: segs

/-- `self.hint.split('//')`. -/
def hintSegments (hint : String) : List String :=
  (splitSlashes hint.toList).map (fun cs => String.mk cs)

/-- The style alternation of `_draw_hint`: starting from toggle state `b`,
each segment first flips the toggle and is then drawn with the resulting
state (`true` = highlighted). -/
def alternateStyle (b : Bool) : List String → List (Bool × String)
  | [] => []
  | s :: rest => (!b, s) :: alternateStyle (!b) rest

/-- The loop body of `_draw_hint`.  Modelled from the spec:
`Widget.addnstr` is not under `src/`; per the spec a write is rejected
(raises, caught by the `except: break`) exactly when the remaining width is
exhausted — it "would overflow the line" — and otherwise consumes the
segment's length from the remaining width.  `spaceLeft` is an `Int`
because the Python counter may go negative. -/
def drawHintGo : List String → Bool → Int → List (Bool × String)
  | [], _, _ => []
  | s :: rest, highlight, spaceLeft =>
    let h := !highlight
    if spaceLeft ≤ 0 then []
    else (h, s) :: drawHintGo rest h (spaceLeft - s.length)

/-- `StatusBar._draw_hint()`: split the hint on `"//"`, start with the
toggle `highlight = True` (so the first segment is drawn plain), and draw
segments left to right until the width is exhausted. -/
def drawHint (hint : String) (wid : Nat) : List (Bool × String) :=
  drawHintGo (hintSegments hint) true (wid : Int)

/-- Total length of a list of segment texts. -/
def sumLen (l : List String) : Nat :=
  (l.map String.length).sum

/-- `StatusBar._get_owner(target)` restricted to its inputs: the shared
`owners` cache (an association list standing for the Python dict), the
password database `pw` (`getpwuid(uid)[0]`, `none` when it raises
`KeyError`), and the uid.  Returns the displayed name, the updated cache,
and how many `getpwuid` resolutions were performed. -/
def getOwner (owners : List (Nat × String)) (pw : Nat → Option String)
    (uid : Nat) : String × List (Nat × String) × Nat :=
  match owners.lookup uid with
  | some name => (name, owners, 0)
  | none =>
    match pw uid with
    | some name => (name, (uid, name) :: owners, 1)
    | none => (toString uid, owners, 1)

/-- `StatusBar._get_group(target)`: same shape as `_get_owner` over the
`groups` cache and `getgrgid`. -/
def getGroup (groups : List (Nat × String)) (gr : Nat → Option String)
    (gid : Nat) : String × List (Nat × String) × Nat :=
  match groups.lookup gid with
  | some name => (name, groups, 0)
  | none =>
    match gr gid with
    | some name => (name, (gid, name) :: groups, 1)
    | none => (toString gid, groups, 1)

/-- Target selection at the top of `_get_left_part`: if a column was given
and it has a directory target, use that directory's pointed entry,
otherwise the top-level pointed entry `env.at_level(0).pointed_obj`. -/
def resolveLeftTarget (column : Option Column) (lv0 : Option FsTarget) :
    Option FsTarget :=
  match column with
  | some c =>
    match c.target with
    | some d => if d.is_directory then d.pointed_obj else lv0
    | none => lv0
  | none => lv0

/-- The `strftime` format string class attribute `StatusBar.timeformat`. -/
def timeformat : String := "%Y-%m-%d %H:%M"

/-- `StatusBar._get_left_part(bar)`, returning the `left` fragment
sequence.  `euid` is `os.getuid()`; `strftime fmt t` models
`strftime(fmt, localtime(t))` (stdlib, passed in as a parameter); `pw`/`gr`
and the caches are as in `getOwner`/`getGroup`.  A `none` target models
`target.stat` raising (caught, left part empty), `stat = none` the explicit
`if stat is None: return`. -/
def getLeftPart (euid : Nat) (displaySize : Bool)
    (strftime : String → Int → String)
    (owners groups : List (Nat × String)) (pw gr : Nat → Option String)
    (column : Option Column) (lv0 : Option FsTarget) : List Fragment :=
  match resolveLeftTarget column lv0 with
  | none => []
  | some t =>
    match t.stat with
    | none => []
    | some st =>
      let how := if euid = st.st_uid then "good" else "bad"
      let base : List Fragment :=
        [⟨t.permissions, ["permissions", how]⟩, spaceFrag,
         ⟨toString st.st_nlink, ["nlink"]⟩, spaceFrag,
         ⟨(getOwner owners pw st.st_uid).1, ["owner"]⟩, spaceFrag,
         ⟨(getGroup groups gr st.st_gid).1, ["group"]⟩]
      if t.is_link then
        base ++ [⟨" -> " ++ t.readlink,
                  ["link", if t.fexists then "good" else "bad"]⟩]
      else
        base ++
          (if displaySize ∧ t.infostring ≠ "" then [⟨t.infostring, []⟩] else []) ++
          [spaceFrag, ⟨strftime timeformat st.st_mtime, ["mtime"]⟩]

/-- `target.marked_items`: the listed items currently marked. -/
def markedItems (fs : List FileItem) : List FileItem :=
  fs.filter (·.marked)

/-- `sum(f.size for f in target.marked_items if f.is_file)`. -/
def sumMarkedSizes (l : List FileItem) : Nat :=
  ((l.filter (·.is_file)).map (·.size)).sum

/-- Round `n / d` (with `0 < d`) to the nearest integer, ties to even —
the rounding Python's `'{0:.0f}'` formatting applies to an exact
half-integer quotient. -/
def roundHalfEven (n d : Nat) : Nat :=
  let q := n / d
  let r := n % d
  if 2 * r < d then q
  else if d < 2 * r then q + 1
  else if q % 2 = 0 then q else q + 1

/-- `'{0:0>.0f}%'.format(100.0 * pos / max_pos)`: the percentage rendered
with no fractional digits and a trailing `%`.  The binary float quotient is
modelled as the exact rational `100 * pos / maxPos`, rounded half to even;
this agrees with the float formatting whenever the quotient is exactly
representable (in particular on every integral or half-integral
percentage the code can produce from small counts). -/
def formatPercent (pos maxPos : Nat) : String :=
  toString (roundHalfEven (100 * pos) maxPos) ++ "%"

/-- `StatusBar._get_right_part(bar)`, returning the `right` fragment
sequence.  Modelled collaborators (not under `src/`): `human_readable`
(the spec's SizeFormatter) is the parameter `hr`;
`env.get_free_space(path)` is the parameter `freeSpace`; `len(target)` for
a directory is its listing length (the spec's `itemCount`). -/
def getRightPart (freeSpace : String → Nat) (hr : Nat → String)
    (column : Option Column) : List Fragment :=
  match column with
  | none => []
  | some c =>
    match c.target with
    | none => []
    | some t =>
      if t.accessible = false ∨ (t.is_directory = true ∧ t.files = none) then []
      else
        let fs := t.files.getD []
        let marked := markedItems fs
        let pos : Int := (t.scroll_begin : Int)
        let maxPos : Int := (fs.length : Int) - (c.hei : Int)
        let summary : List Fragment :=
          if marked ≠ [] then
            [⟨hr (if marked.length = fs.length then t.disk_usage
                  else sumMarkedSizes marked), []⟩,
             ⟨" / " ++ toString marked.length, []⟩]
          else
            [⟨hr t.disk_usage, []⟩, ⟨", ", ["space"]⟩,
             ⟨hr (freeSpace t.mount_path), []⟩]
        let ind : Fragment :=
          if marked ≠ [] then ⟨"Mrk", ["scroll", "marked"]⟩
          else if 0 < maxPos then
            if pos = 0 then ⟨"Top", ["scroll", "top"]⟩
            else if maxPos ≤ pos then ⟨"Bot", ["scroll", "bot"]⟩
            else ⟨formatPercent t.scroll_begin maxPos.toNat,
                  ["scroll", "percentage"]⟩
          else ⟨"All", ["scroll", "all"]⟩
        summary ++ [⟨"  ", ["space"]⟩] ++ [ind]

/-- Lines 81-105 of `StatusBar.draw()`: the no-overlay tail.  Observes the
current file's mtime (sentinel `-1` on failure), sets `need_redraw` when
the cached result is falsy, when the stored disk usage is truthy while the
current one is falsy, when the current-file identity changed, or when the
observed mtime changed — each check updating its own stored field — and
finally, if `need_redraw` is set, clears it, recomposes via `_calc_bar`
(caching `env.bar` as `result`) and prints the result. -/
def drawNormal (env : Env) (s0 : StatusBar) : StatusBar × List DrawEvent :=
  let mtime := observedMtime env.cf
  let s1 := if resultTruthy s0.result = false then
              { s0 with need_redraw := true } else s0
  let s2 := if duTruthy s1.old_du = true ∧ env.du = 0 then
              { s1 with old_du := some env.du, need_redraw := true } else s1
  let s3 := if s2.old_cf ≠ cfId env.cf then
              { s2 with old_cf := cfId env.cf, need_redraw := true } else s2
  let s4 := if s3.old_mtime ≠ some mtime then
              { s3 with old_mtime := some mtime, need_redraw := true } else s3
  if s4.need_redraw = true then
    ({ s4 with need_redraw := false, result := some env.bar },
     [DrawEvent.redrewBar env.bar])
  else (s4, [])

/-- `StatusBar.draw()` at wall-clock time `now` observing `env`.  If the
hint is a non-empty string: flag a redraw when it differs from `old_hint`,
paint it when flagged, and return.  Otherwise: clear a stale truthy
`old_hint` (flagging a redraw); then an alive message is painted and the
call returns, a dead one is dropped (flagging a redraw); then the
no-overlay tail runs. -/
def draw (now : Int) (env : Env) (s : StatusBar) :
    StatusBar × List DrawEvent :=
  if strTruthy s.hint = true then
    let s1 := if s.old_hint ≠ s.hint then { s with need_redraw := true } else s
    if s1.need_redraw = true then
      (s1, [DrawEvent.drewHint (drawHint (s.hint.getD "") env.wid)])
    else (s1, [])
  else
    let s1 := if strTruthy s.old_hint = true ∧ strTruthy s.hint = false then
                { s with old_hint := none, need_redraw := true } else s
    match s1.msg with
    | some m =>
      if m.is_alive now = true then (s1, [DrawEvent.drewMessage m])
      else drawNormal env { s1 with msg := none, need_redraw := true }
    | none => drawNormal env s1

theorem drawNormal_fire (env : Env) (s : StatusBar) (h : s.need_redraw = true) :
    (drawNormal env s).2 = [DrawEvent.redrewBar env.bar] ∧
    (drawNormal env s).1.need_redraw = false ∧
    (drawNormal env s).1.result = some env.bar ∧
    (drawNormal env s).1.msg = s.msg ∧
    (drawNormal env s).1.hint = s.hint ∧
    (drawNormal env s).1.old_hint = s.old_hint := by
  simp only [drawNormal]
  split_ifs <;> simp_all

theorem drawNormal_skip (env : Env) (s : StatusBar)
    (h1 : s.need_redraw = false) (h2 : resultTruthy s.result = true)
    (h3 : duTruthy s.old_du = false) (h4 : s.old_cf = cfId env.cf)
    (h5 : s.old_mtime = some (observedMtime env.cf)) :
    drawNormal env s = (s, []) := by
  simp [drawNormal, h1, h2, h3, h4, h5]

theorem drawNormal_post (env : Env) (s : StatusBar) (hbar : env.bar ≠ []) :
    (drawNormal env s).1.need_redraw = false ∧
    (drawNormal env s).1.old_cf = cfId env.cf ∧
    (drawNormal env s).1.old_mtime = some (observedMtime env.cf) ∧
    resultTruthy (drawNormal env s).1.result = true ∧
    (drawNormal env s).1.hint = s.hint ∧
    (drawNormal env s).1.old_hint = s.old_hint ∧
    (drawNormal env s).1.msg = s.msg ∧
    (duTruthy s.old_du = false → duTruthy (drawNormal env s).1.old_du = false) := by
  simp only [drawNormal]
  split_ifs <;> simp_all [resultTruthy, duTruthy]

theorem drawNormal_du (env : Env) (s : StatusBar)
    (h : duTruthy s.old_du = false) :
    duTruthy (drawNormal env s).1.old_du = false := by
  simp only [drawNormal]
  split_ifs <;> simp_all [duTruthy]

theorem drawNormal_fire_of_mtime (env : Env) (s : StatusBar)
    (h : s.old_mtime ≠ some (observedMtime env.cf)) :
    (drawNormal env s).2 = [DrawEvent.redrewBar env.bar] := by
  simp only [drawNormal]
  split_ifs <;> simp_all

theorem alternateStyle_snd (b : Bool) (l : List String) :
    (alternateStyle b l).map Prod.snd = l := by
  induction l generalizing b with
  | nil => rfl
  | cons s rest ih => simp [alternateStyle, ih]

theorem alternateStyle_length (b : Bool) (l : List String) :
    (alternateStyle b l).length = l.length := by
  induction l generalizing b with
  | nil => rfl
  | cons s rest ih => simp [alternateStyle, ih]

theorem drawHintGo_take (l : List String) (b : Bool) (sp : Int) :
    ∃ k, drawHintGo l b sp = (alternateStyle b l).take k := by
  induction l generalizing b sp with
  | nil => exact ⟨0, rfl⟩
  | cons s rest ih =>
    by_cases hsp : sp ≤ 0
    · exact ⟨0, by simp [drawHintGo, hsp]⟩
    · obtain ⟨k, hk⟩ := ih (!b) (sp - s.length)
      exact ⟨k + 1, by simp [drawHintGo, hsp, alternateStyle, hk]⟩

theorem drawHintGo_style (l : List String) (b : Bool) (sp : Int) (i : Nat)
    (h : i < (drawHintGo l b sp).length) :
    ((drawHintGo l b sp).get ⟨i, h⟩).1 = if i % 2 = 0 then !b else b := by
  induction l generalizing b sp i with
  | nil => simp [drawHintGo] at h
  | cons s rest ih =>
    by_cases hsp : sp ≤ 0
    · simp [drawHintGo, hsp] at h
    · match i with
      | 0 => simp [drawHintGo, hsp]
      | i + 1 =>
        have h' : i < (drawHintGo rest (!b) (sp - s.length)).length := by
          simpa [drawHintGo, hsp] using h
        have hrec := ih (!b) (sp - s.length) i h'
        have hstep : ((drawHintGo (s :: rest) b sp).get ⟨i + 1, h⟩) =
            ((drawHintGo rest (!b) (sp - s.length)).get ⟨i, h'⟩) := by
          simp [drawHintGo, hsp]
        rw [hstep, hrec]
        rcases Nat.mod_two_eq_zero_or_one i with h0 | h1
        · simp [h0, Nat.add_mod, Nat.mod_two_eq_zero_or_one]
        · simp [h1, Nat.add_mod]

theorem drawHintGo_stop (l : List String) (b : Bool) (sp : Int)
    (h : (drawHintGo l b sp).length < l.length) :
    sp ≤ (sumLen ((drawHintGo l b sp).map Prod.snd) : Int) := by
  induction l generalizing b sp with
  | nil => simp [drawHintGo] at h
  | cons s rest ih =>
    by_cases hsp : sp ≤ 0
    · simp [drawHintGo, hsp, sumLen]
    · have h' : (drawHintGo rest (!b) (sp - s.length)).length < rest.length := by
        simpa [drawHintGo, hsp] using h
      have hrec := ih (!b) (sp - s.length) h'
      simp only [drawHintGo, if_neg hsp, List.map_cons, sumLen, List.sum_cons] at hrec ⊢
      push_cast at hrec ⊢
      omega

/-- C4: `_draw_hint` splits the hint on the two-character separator `"//"`
and draws the segments left to right with styles alternating plain,
highlighted, plain, … (the toggle flips before each segment, so segment 0
is plain); the drawn segments are an initial run of the split — once a
write is rejected all subsequent segments are not drawn — and when the run
is cut short the remaining width was exhausted.  `drawHint` is a total
function: no error reaches the caller. -/
theorem hint_draw_segments (hint : String) (wid : Nat) :
    (∃ k, drawHint hint wid = (alternateStyle true (hintSegments hint)).take k) ∧
    ((drawHint hint wid).map Prod.snd =
       (hintSegments hint).take (drawHint hint wid).length) ∧
    (∀ i, (h : i < (drawHint hint wid).length) →
       ((drawHint hint wid).get ⟨i, h⟩).1 = decide (i % 2 = 1)) ∧
    ((drawHint hint wid).length < (hintSegments hint).length →
       (wid : Int) ≤ (sumLen ((drawHint hint wid).map Prod.snd) : Int)) := by
  refine ⟨drawHintGo_take _ _ _, ?_, ?_, ?_⟩
  · obtain ⟨k, hk⟩ := drawHintGo_take (hintSegments hint) true (wid : Int)
    simp only [drawHint] at hk ⊢
    rw [hk, List.map_take, alternateStyle_snd]
    rw [List.take_eq_take, List.length_take, alternateStyle_length]
    omega
  · intro i h
    have hsty := drawHintGo_style (hintSegments hint) true (wid : Int) i h
    simp only [drawHint] at hsty ⊢
    rw [hsty]
    rcases Nat.mod_two_eq_zero_or_one i with h0 | h1
    · simp [h0]
    · simp [h1]
  · exact drawHintGo_stop _ _ _

/-- Witness for C4 at `hint = "a//b//c"`, `wid = 2`: the drawn segments are
the first two of `["a", "b", "c"]`, plain then highlighted, and the run is
cut short because the width is exhausted. -/
theorem hint_draw_segments_witness :
    drawHint "a//b//c" 2 = [(false, "a"), (true, "b")] ∧
    ((drawHint "a//b//c" 2).map Prod.snd =
       (hintSegments "a//b//c").take (drawHint "a//b//c" 2).length) ∧
    ((2 : Nat) : Int) ≤ (sumLen ((drawHint "a//b//c" 2).map Prod.snd) : Int) := by
  refine ⟨by decide, (hint_draw_segments "a//b//c" 2).2.1, ?_⟩
  exact (hint_draw_segments "a//b//c" 2).2.2.2 (by decide)

/-- A password/group database in which no id resolves. -/
def pwFails : Nat → Option String := fun _ => none

/-- C3 counterexample: with an empty cache and a uid (5) that fails to
resolve, `_get_owner` returns the numeric fallback `"5"` but leaves the
cache unchanged, so a repeated lookup of the same failing id performs the
resolution again (a second `getpwuid` call is counted). -/
theorem owner_fallback_not_cached :
    (getOwner [] pwFails 5).1 = "5" ∧
    (getOwner [] pwFails 5).2.1 = [] ∧
    (getOwner (getOwner [] pwFails 5).2.1 pwFails 5).2.2 = 1 := by
  decide

/-- C3 amended: when uid/gid name resolution fails, `_get_owner` and
`_get_group` fall back to the numeric id rendered as a decimal string, but
the fallback is NOT cached: the cache is returned unchanged and a repeated
lookup of the same failing id performs the resolution again (one database
query per call). -/
theorem name_resolution_fallback (owners groups : List (Nat × String))
    (pw gr : Nat → Option String) (uid gid : Nat)
    (h1 : owners.lookup uid = none) (h2 : pw uid = none)
    (h3 : groups.lookup gid = none) (h4 : gr gid = none) :
    getOwner owners pw uid = (toString uid, owners, 1) ∧
    getGroup groups gr gid = (toString gid, groups, 1) ∧
    (getOwner (getOwner owners pw uid).2.1 pw uid).2.2 = 1 ∧
    (getGroup (getGroup groups gr gid).2.1 gr gid).2.2 = 1 := by
  simp [getOwner, getGroup, h1, h2, h3, h4]

/-- Witness for C3's amended theorem at uid 7, gid 8, empty caches. -/
theorem name_resolution_fallback_witness :
    getOwner [] pwFails 7 = ("7", [], 1) ∧
    getGroup [] pwFails 8 = ("8", [], 1) ∧
    (getOwner (getOwner [] pwFails 7).2.1 pwFails 7).2.2 = 1 ∧
    (getGroup (getGroup [] pwFails 8).2.1 pwFails 8).2.2 = 1 :=
  name_resolution_fallback [] [] pwFails pwFails 7 8 rfl rfl rfl rfl

/-- C6: a message created by `notify(text, duration, bad)` at wall-clock
time `T` is alive for every `t` with `T ≤ t ≤ T + duration` and dead for
every `t > T + duration`; `notify` replaces any existing message
unconditionally; and (outside an active hint) a dead message is dropped at
the next `draw()` and forces a recomposition and print of the bar. -/
theorem message_lifecycle (text : String) (d T t now : Int) (bad : Bool)
    (s : StatusBar) (env : Env) (m : Message) :
    (T ≤ t → t ≤ T + d → (mkMessage text d bad T).is_alive t = true) ∧
    (T + d < t → (mkMessage text d bad T).is_alive t = false) ∧
    ((StatusBar.notify s now text d bad).msg = some (mkMessage text d bad now)) ∧
    (strTruthy s.hint = false → s.msg = some m → m.is_alive now = false →
       (draw now env s).1.msg = none ∧
       (draw now env s).2 = [DrawEvent.redrewBar env.bar]) := by
  refine ⟨?_, ?_, rfl, ?_⟩
  · intro _ h2
    simp only [mkMessage, Message.is_alive, decide_eq_true_eq]
    exact h2
  · intro h
    simp only [mkMessage, Message.is_alive, decide_eq_false_iff_not]
    omega
  · intro hh hm ha
    by_cases hoh : strTruthy s.old_hint = true
    · simp only [draw, hh, hoh, Bool.false_eq_true, if_false, and_self, if_true,
        Bool.true_eq_false]
      simp only [hm, ha, Bool.false_eq_true, if_false]
      have hf := drawNormal_fire env
        { s with old_hint := none, need_redraw := true, msg := none } rfl
      exact ⟨hf.2.2.2.1, hf.1⟩
    · simp only [draw, hh, hoh, Bool.false_eq_true, if_false, and_self,
        Bool.true_eq_false, false_and]
      simp only [hm, ha, Bool.false_eq_true, if_false]
      have hf := drawNormal_fire env { s with msg := none, need_redraw := true } rfl
      exact ⟨hf.2.2.2.1, hf.1⟩

/-- Witness for C6: `notify("x", 4, false)` at time 10 is alive at 14 and
dead at 15, a second notify replaces it, and a state holding the dead
message with no hint drops it and redraws at the next `draw()`. -/
theorem message_lifecycle_witness :
    ((mkMessage "x" 4 false 10).is_alive 14 = true) ∧
    ((mkMessage "x" 4 false 10).is_alive 15 = false) ∧
    ((StatusBar.notify StatusBar.init 10 "x" 4 false).msg =
       some (mkMessage "x" 4 false 10)) ∧
    ((draw 15 ⟨none, 0, 80, [⟨"b", []⟩]⟩
        { StatusBar.init with msg := some (mkMessage "x" 4 false 10) }).1.msg =
       none ∧
     (draw 15 ⟨none, 0, 80, [⟨"b", []⟩]⟩
        { StatusBar.init with msg := some (mkMessage "x" 4 false 10) }).2 =
       [DrawEvent.redrewBar [⟨"b", []⟩]]) := by
  have h := message_lifecycle "x" 4 10 14 10 false StatusBar.init
    ⟨none, 0, 80, [⟨"b", []⟩]⟩ (mkMessage "x" 4 false 10)
  have h2 := message_lifecycle "x" 4 10 15 15 false
    { StatusBar.init with msg := some (mkMessage "x" 4 false 10) }
    ⟨none, 0, 80, [⟨"b", []⟩]⟩ (mkMessage "x" 4 false 10)
  exact ⟨h.1 (by decide) (by decide), h2.2.1 (by decide), h.2.2.1,
    h2.2.2.2 (by decide) rfl (by decide)⟩

/-- C10: a failing `self.env.cf.stat.st_mtime` read (missing file or
failing stat) is replaced by the sentinel `-1` rather than propagating;
a file whose real mtime is `-1` is observationally identical to a stat
failure (draw depends on the current file only through its identity and
observed mtime); and a change of the observed mtime — in particular the
transition between stat-available (mtime ≠ -1) and stat-unavailable —
forces a recomposition at the next `draw()` (no hint, no message). -/
theorem mtime_sentinel (c cfail : CFile) (st : Stat) (s : StatusBar)
    (env env2 : Env) (now m : Int) :
    (observedMtime none = -1) ∧
    (c.stat = none → observedMtime (some c) = -1) ∧
    (c.stat = some st → st.st_mtime = -1 → cfail.stat = none →
       observedMtime (some c) = observedMtime (some cfail)) ∧
    (env.du = env2.du → env.wid = env2.wid → env.bar = env2.bar →
     cfId env.cf = cfId env2.cf → observedMtime env.cf = observedMtime env2.cf →
       draw now env s = draw now env2 s) ∧
    (strTruthy s.hint = false → s.msg = none →
     s.old_mtime = some m → m ≠ observedMtime env.cf →
       (draw now env s).2 = [DrawEvent.redrewBar env.bar]) := by
  refine ⟨rfl, ?_, ?_, ?_, ?_⟩
  · intro h; simp [observedMtime, h]
  · intro h1 h2 h3; simp [observedMtime, h1, h2, h3]
  · intro h1 h2 h3 h4 h5
    simp only [draw, drawNormal, h1, h2, h3, h4, h5]
  · intro hh hm hom hne
    by_cases hoh : strTruthy s.old_hint = true
    · simp only [draw, hh, hoh, Bool.false_eq_true, if_false, and_self, if_true,
        Bool.true_eq_false]
      simp only [hm]
      exact (drawNormal_fire env
        { s with old_hint := none, need_redraw := true, msg := none } rfl).1
    · simp only [draw, hh, hoh, Bool.false_eq_true, if_false, and_self,
        Bool.true_eq_false, false_and]
      simp only [hm]
      exact drawNormal_fire_of_mtime env s (by
        rw [hom]
        simp only [ne_eq, Option.some.injEq]
        exact hne)

/-- Witness for C10: a current file with failing stat observes mtime -1,
equal to that of a file whose real mtime is -1; and a state whose stored
mtime is 100 redraws when the stat becomes unavailable. -/
theorem mtime_sentinel_witness :
    (observedMtime (some ⟨1, none⟩) = -1) ∧
    (observedMtime (some ⟨1, none⟩) = observedMtime (some ⟨2, some ⟨0, 0, 1, -1⟩⟩)) ∧
    ((draw 0 ⟨some ⟨1, none⟩, 0, 80, [⟨"b", []⟩]⟩
        { StatusBar.init with old_mtime := some 100 }).2 =
       [DrawEvent.redrewBar [⟨"b", []⟩]]) := by
  have h := mtime_sentinel ⟨1, none⟩ ⟨1, none⟩ ⟨0, 0, 1, -1⟩
    { StatusBar.init with old_mtime := some 100 }
    ⟨some ⟨1, none⟩, 0, 80, [⟨"b", []⟩]⟩ ⟨some ⟨1, none⟩, 0, 80, [⟨"b", []⟩]⟩ 0 100
  have h2 := mtime_sentinel ⟨2, some ⟨0, 0, 1, -1⟩⟩ ⟨1, none⟩ ⟨0, 0, 1, -1⟩
    StatusBar.init ⟨none, 0, 80, []⟩ ⟨none, 0, 80, []⟩ 0 0
  refine ⟨h.2.1 rfl, ?_, h.2.2.2.2 rfl rfl rfl (by decide)⟩
  exact (h2.2.2.1 rfl rfl rfl).symm

/-- A one-fragment bar used by the concrete states below. -/
def fragX : Fragment := ⟨"x", []⟩

/-- A stat record with mtime 100. -/
def statA : Stat := ⟨0, 0, 1, 100⟩

/-- C1 counterexample environment: current file unchanged (identity 1,
mtime 100), but the directory's disk usage is now present (5). -/
def envC1 : Env := ⟨some ⟨1, some statA⟩, 5, 80, [fragX]⟩

/-- C1 counterexample state: cached result present, current-file identity
and mtime both match the environment, no overlays, and no stored disk
usage (absent in the previous frame). -/
def sbC1 : StatusBar :=
  ⟨none, none, none, some 1, some 100, none, some [fragX], false⟩

/-- C1 counterexample: in `sbC1` the disk-usage value transitions from
absent (`old_du` falsy) to present (`env.du = 5`), everything else is
unchanged, yet `draw()` leaves the state untouched and performs no
recomposition and no write at all — the transition does not force a
redraw. -/
theorem du_absent_to_present_no_redraw :
    duTruthy sbC1.old_du = false ∧ envC1.du ≠ 0 ∧
    draw 0 envC1 sbC1 = (sbC1, []) := by decide

/-- C1 amended: the disk-usage check in `draw()` fires only when the stored
`old_du` is truthy while the current disk usage is falsy, and `old_du` is
only ever overwritten with such falsy values; hence from any state whose
`old_du` is falsy (as it initially is), `old_du` stays falsy forever, the
check never fires, and a disk-usage change alone — in particular the
transition from absent to present — never forces a redraw: with no
overlays, a cached non-empty result, and unchanged file identity and
mtime, `draw()` is a no-op whatever `env.du` is. -/
theorem du_branch_never_fires (now : Int) (env : Env) (s : StatusBar)
    (hdu : duTruthy s.old_du = false) :
    duTruthy (draw now env s).1.old_du = false ∧
    (strTruthy s.hint = false → strTruthy s.old_hint = false → s.msg = none →
     s.need_redraw = false → resultTruthy s.result = true →
     s.old_cf = cfId env.cf → s.old_mtime = some (observedMtime env.cf) →
     draw now env s = (s, [])) := by
  constructor
  · by_cases hh : strTruthy s.hint = true
    · simp only [draw, hh, if_true]
      split_ifs <;> simp_all
    · have hh' : strTruthy s.hint = false := by
        cases h : strTruthy s.hint
        · rfl
        · exact absurd h hh
      by_cases hoh : strTruthy s.old_hint = true
      · simp only [draw, hh', hoh, Bool.false_eq_true, if_false, and_self, if_true,
          Bool.true_eq_false]
        cases hm : s.msg with
        | some m =>
          by_cases ha : m.is_alive now = true
          · simp [ha, hdu]
          · have ha' : m.is_alive now = false := by
              cases h : m.is_alive now
              · rfl
              · exact absurd h ha
            simp only [ha', Bool.false_eq_true, if_false]
            exact drawNormal_du env _ hdu
        | none => exact drawNormal_du env _ hdu
      · simp only [draw, hh', hoh, Bool.false_eq_true, if_false, and_self,
          Bool.true_eq_false, false_and]
        cases hm : s.msg with
        | some m =>
          by_cases ha : m.is_alive now = true
          · simp [ha, hdu]
          · have ha' : m.is_alive now = false := by
              cases h : m.is_alive now
              · rfl
              · exact absurd h ha
            simp only [ha', Bool.false_eq_true, if_false]
            exact drawNormal_du env _ hdu
        | none => exact drawNormal_du env _ hdu
  · intro hh hoh hm hnr hres hcf hmt
    simp only [draw, hh, hoh, Bool.false_eq_true, if_false, and_self,
      Bool.true_eq_false, false_and, hm]
    exact drawNormal_skip env s hnr hres hdu hcf hmt

/-- Witness for C1's amended theorem at the counterexample state. -/
theorem du_branch_never_fires_witness :
    duTruthy (draw 0 envC1 sbC1).1.old_du = false ∧
    draw 0 envC1 sbC1 = (sbC1, []) := by
  have h := du_branch_never_fires 0 envC1 sbC1 (by decide)
  exact ⟨h.1, h.2 (by decide) (by decide) rfl rfl (by decide) (by decide) (by decide)⟩

/-- C2 counterexample environment (current file identity 1, mtime 100). -/
def envC2 : Env := ⟨some ⟨1, some statA⟩, 5, 80, [fragX]⟩

/-- C2 counterexample state: a non-empty hint is active, a cached result is
present, and every fingerprint field matches the environment. -/
def sbC2 : StatusBar :=
  ⟨some "abc", none, none, some 1, some 100, none, some [fragX], false⟩

/-- C2 counterexample: from `sbC2` (cached result present, active hint
"abc") two consecutive `draw()` calls with no intervening change both
write: the second call paints the hint overlay again instead of being a
no-op, because `old_hint` is never updated to the displayed hint. -/
theorem hint_second_draw_writes :
    resultTruthy sbC2.result = true ∧ strTruthy sbC2.hint = true ∧
    (draw 0 envC2 (draw 0 envC2 sbC2).1).2 =
      [DrawEvent.drewHint (drawHint "abc" 80)] := by decide

/-- C2 amended: with no overlay active (hint falsy, no message, `old_hint`
falsy) and a recomposition that yields a non-empty bar, two consecutive
`draw()` calls with no intervening change perform the recomposition and
write at most once: the second call emits no event at all.  The
restriction to the no-overlay path is necessary: while a non-empty hint
(or an alive message) is active, every `draw()` call repaints the
overlay. -/
theorem draw_idempotent_no_overlay (n1 n2 : Int) (env : Env) (s : StatusBar)
    (h1 : strTruthy s.hint = false) (h2 : strTruthy s.old_hint = false)
    (h3 : s.msg = none) (h4 : duTruthy s.old_du = false)
    (h5 : env.bar ≠ []) :
    (draw n2 env (draw n1 env s).1).2 = [] := by
  have hred : draw n1 env s = drawNormal env s := by
    simp only [draw, h1, h2, h3, Bool.false_eq_true, if_false, and_self,
      Bool.true_eq_false, false_and]
  obtain ⟨p1, p2, p3, p4, p5, p6, p7, p8⟩ := drawNormal_post env s h5
  rw [hred]
  have hh : strTruthy (drawNormal env s).1.hint = false := by rw [p5]; exact h1
  have hoh : strTruthy (drawNormal env s).1.old_hint = false := by
    rw [p6]; exact h2
  have hm : (drawNormal env s).1.msg = none := by rw [p7]; exact h3
  have hskip : drawNormal env (drawNormal env s).1 = ((drawNormal env s).1, []) :=
    drawNormal_skip env (drawNormal env s).1 p1 p4 (p8 h4) p2 p3
  simp only [draw, hh, hoh, hm, Bool.false_eq_true, if_false, and_self,
    Bool.true_eq_false, false_and]
  rw [hskip]

/-- Witness for C2's amended theorem from the initial state. -/
theorem draw_idempotent_no_overlay_witness :
    (draw 0 envC2 (draw 0 envC2 StatusBar.init).1).2 = [] :=
  draw_idempotent_no_overlay 0 0 envC2 StatusBar.init rfl rfl rfl rfl (by decide)

/-- C5: overlay precedence of `draw()`.  While the hint is a non-empty
string, `draw()` at most paints the hint and leaves the message and the
cached result untouched; with no active hint, an alive message is painted
(and the cached result untouched) in preference to normal content; and
after a `draw()` that displayed an active hint, clearing the hint makes
the next `draw()` recompose and print the underlying content exactly
once. -/
theorem overlay_precedence (now n2 : Int) (env env2 : Env) (s : StatusBar)
    (m : Message) :
    (strTruthy s.hint = true →
       (draw now env s).1.msg = s.msg ∧
       (draw now env s).1.result = s.result ∧
       ((draw now env s).2 = [] ∨
        (draw now env s).2 =
          [DrawEvent.drewHint (drawHint (s.hint.getD "") env.wid)])) ∧
    (strTruthy s.hint = false → s.msg = some m → m.is_alive now = true →
       (draw now env s).2 = [DrawEvent.drewMessage m] ∧
       (draw now env s).1.result = s.result) ∧
    (strTruthy s.hint = true → s.old_hint = none → s.msg = none →
       (draw n2 env2 { (draw now env s).1 with hint := none }).2 =
         [DrawEvent.redrewBar env2.bar]) := by
  refine ⟨?_, ?_, ?_⟩
  · intro hht
    simp only [draw, hht, if_true]
    split_ifs <;> simp
  · intro hh hm ha
    by_cases hoh : strTruthy s.old_hint = true
    · simp only [draw, hh, hoh, Bool.false_eq_true, if_false, and_self, if_true,
        Bool.true_eq_false]
      simp [hm, ha]
    · simp only [draw, hh, hoh, Bool.false_eq_true, if_false, and_self,
        Bool.true_eq_false, false_and]
      simp [hm, ha]
  · intro hht hold hm
    have hne : s.old_hint ≠ s.hint := by
      cases hcase : s.hint with
      | none => rw [hcase] at hht; simp [strTruthy] at hht
      | some str => rw [hold]; simp
    have h1 : (draw now env s).1 = { s with need_redraw := true } := by
      simp only [draw, hht, if_true, if_pos hne]
    rw [h1]
    simp only [draw, strTruthy, hold, hm, Bool.false_eq_true, if_false, and_self,
      Bool.true_eq_false, false_and]
    exact (drawNormal_fire env2
      { s with need_redraw := true, hint := none, old_hint := none, msg := none }
      rfl).1

/-- A state with an alive message and no hint. -/
def sbMsgC5 : StatusBar :=
  { StatusBar.init with msg := some (mkMessage "m" 4 false 0) }

/-- Witness for C5 at concrete states: an active-hint state paints only the
hint, an alive-message state paints exactly the message, and clearing a
displayed hint makes the next `draw()` print the bar once. -/
theorem overlay_precedence_witness :
    ((draw 0 envC2 sbC2).1.msg = sbC2.msg ∧
     (draw 0 envC2 sbC2).1.result = sbC2.result ∧
     ((draw 0 envC2 sbC2).2 = [] ∨
      (draw 0 envC2 sbC2).2 =
        [DrawEvent.drewHint (drawHint (sbC2.hint.getD "") envC2.wid)])) ∧
    ((draw 0 envC2 sbMsgC5).2 = [DrawEvent.drewMessage (mkMessage "m" 4 false 0)] ∧
     (draw 0 envC2 sbMsgC5).1.result = sbMsgC5.result) ∧
    ((draw 0 envC2 { (draw 0 envC2 sbC2).1 with hint := none }).2 =
       [DrawEvent.redrewBar envC2.bar]) := by
  have h := overlay_precedence 0 0 envC2 envC2 sbC2 (mkMessage "m" 4 false 0)
  have h2 := overlay_precedence 0 0 envC2 envC2 sbMsgC5 (mkMessage "m" 4 false 0)
  exact ⟨h.1 (by decide), h2.2.1 rfl rfl (by decide), h.2.2 (by decide) rfl rfl⟩

/-- C7: for a target with retrievable metadata the left sequence is, in
order: the permission string styled "good" exactly when the effective user
owns the file (else "bad"); a space; the hard-link count; a space; the
resolved owner name; a space; the resolved group name; then, for a
symbolic link, " -> " plus the link target styled "good" exactly when the
link resolves, and nothing further; otherwise the optional size/type info
string (only when the display option is enabled and the string non-empty),
a space, and the mtime formatted with the fixed `%Y-%m-%d %H:%M` format. -/
theorem left_part_sequence (euid : Nat) (displaySize : Bool)
    (strftime : String → Int → String) (owners groups : List (Nat × String))
    (pw gr : Nat → Option String) (column : Option Column)
    (lv0 : Option FsTarget) (t : FsTarget) (st : Stat)
    (ht : resolveLeftTarget column lv0 = some t) (hs : t.stat = some st) :
    timeformat = "%Y-%m-%d %H:%M" ∧
    getLeftPart euid displaySize strftime owners groups pw gr column lv0 =
      [⟨t.permissions, ["permissions",
          if euid = st.st_uid then "good" else "bad"]⟩,
       spaceFrag, ⟨toString st.st_nlink, ["nlink"]⟩, spaceFrag,
       ⟨(getOwner owners pw st.st_uid).1, ["owner"]⟩, spaceFrag,
       ⟨(getGroup groups gr st.st_gid).1, ["group"]⟩] ++
      (if t.is_link then
         [⟨" -> " ++ t.readlink, ["link", if t.fexists then "good" else "bad"]⟩]
       else
         (if displaySize ∧ t.infostring ≠ "" then [⟨t.infostring, []⟩] else []) ++
         [spaceFrag, ⟨strftime timeformat st.st_mtime, ["mtime"]⟩]) := by
  refine ⟨rfl, ?_⟩
  simp only [getLeftPart, ht, hs]
  split_ifs <;> simp_all

/-- A time formatter standing in for `strftime`/`localtime` in the C7
witness. -/
def fmtStub : String → Int → String := fun _ _ => "1970-01-01 00:00"

/-- A non-link target with full metadata for the C7 witness. -/
def tgtC7 : FsTarget := ⟨some ⟨1000, 1000, 2, 3600⟩, "-rw-r--r--", false, true, "", "4 B"⟩

/-- Witness for C7: a non-link target owned by euid 1000 with an
infostring, resolved through failing name databases. -/
theorem left_part_sequence_witness :
    getLeftPart 1000 true fmtStub [] [] pwFails pwFails none (some tgtC7) =
      [⟨"-rw-r--r--", ["permissions", "good"]⟩, spaceFrag,
       ⟨"2", ["nlink"]⟩, spaceFrag, ⟨"1000", ["owner"]⟩, spaceFrag,
       ⟨"1000", ["group"]⟩, ⟨"4 B", []⟩, spaceFrag,
       ⟨"1970-01-01 00:00", ["mtime"]⟩] := by
  have h := left_part_sequence 1000 true fmtStub [] [] pwFails pwFails none
    (some tgtC7) tgtC7 ⟨1000, 1000, 2, 3600⟩ rfl rfl
  rw [h.2]
  decide

/-- C8: the selection/scroll indicator is the last right-part fragment and
is decided by this strict priority: "Mrk" when any items are marked; else
"All" when `maxScroll = itemCount - columnHeight ≤ 0`; else "Top" when the
scroll offset is 0; else "Bot" when the offset reaches `maxScroll`; else
the rounded integer percentage of `100 * offset / maxScroll` followed by
"%" — in particular offset 5 of maxScroll 10 renders "50%". -/
theorem scroll_indicator_cases (freeSpace : String → Nat) (hr : Nat → String)
    (c : Column) (t : DirTarget) (fs : List FileItem)
    (hc : c.target = some t) (ha : t.accessible = true) (hf : t.files = some fs) :
    (markedItems fs ≠ [] →
       (getRightPart freeSpace hr (some c)).getLast? =
         some ⟨"Mrk", ["scroll", "marked"]⟩) ∧
    (markedItems fs = [] → (fs.length : Int) - (c.hei : Int) ≤ 0 →
       (getRightPart freeSpace hr (some c)).getLast? =
         some ⟨"All", ["scroll", "all"]⟩) ∧
    (markedItems fs = [] → 0 < (fs.length : Int) - (c.hei : Int) →
     t.scroll_begin = 0 →
       (getRightPart freeSpace hr (some c)).getLast? =
         some ⟨"Top", ["scroll", "top"]⟩) ∧
    (markedItems fs = [] → 0 < (fs.length : Int) - (c.hei : Int) →
     t.scroll_begin ≠ 0 →
     (fs.length : Int) - (c.hei : Int) ≤ (t.scroll_begin : Int) →
       (getRightPart freeSpace hr (some c)).getLast? =
         some ⟨"Bot", ["scroll", "bot"]⟩) ∧
    (markedItems fs = [] → 0 < (fs.length : Int) - (c.hei : Int) →
     t.scroll_begin ≠ 0 →
     (t.scroll_begin : Int) < (fs.length : Int) - (c.hei : Int) →
       (getRightPart freeSpace hr (some c)).getLast? =
         some ⟨formatPercent t.scroll_begin ((fs.length : Int) - (c.hei : Int)).toNat,
               ["scroll", "percentage"]⟩) ∧
    formatPercent 5 10 = "50%" := by
  have hguard : ¬ (t.accessible = false ∨ (t.is_directory = true ∧ t.files = none)) := by
    simp [ha, hf]
  refine ⟨?_, ?_, ?_, ?_, ?_, by decide⟩
  all_goals intro hm
  · simp only [getRightPart, hc, if_neg hguard, hf, Option.getD_some]
    simp [hm, ha]
  all_goals intro hpos
  · simp only [getRightPart, hc, if_neg hguard, hf, Option.getD_some]
    have : ¬ ((0 : Int) < (fs.length : Int) - (c.hei : Int)) := by omega
    simp [hm, this, ha]
  all_goals intro hsb
  · simp only [getRightPart, hc, if_neg hguard, hf, Option.getD_some]
    have hz : ((t.scroll_begin : Nat) : Int) = 0 := by
      rw [hsb]; rfl
    simp [hm, hpos, hz, ha]
  all_goals
    have hz : ¬ (((t.scroll_begin : Nat) : Int) = 0) := by
      simpa using hsb
  · intro hbot
    simp only [getRightPart, hc, if_neg hguard, hf, Option.getD_some]
    simp [hm, hpos, hz, hbot, ha]
  · intro hmid
    simp only [getRightPart, hc, if_neg hguard, hf, Option.getD_some]
    have : ¬ ((fs.length : Int) - (c.hei : Int) ≤ (t.scroll_begin : Int)) := by omega
    simp [hm, hpos, hz, this, ha]

/-- `n` unmarked plain files of size 1. -/
def fsU (n : Nat) : List FileItem := List.replicate n ⟨1, true, false⟩

/-- A directory of `n` unmarked files scrolled to `off`. -/
def dirT (n off : Nat) : DirTarget := ⟨true, true, some (fsU n), off, 0, "/", none⟩

/-- A column over `dirT n off` with height `hei`. -/
def colT (n off hei : Nat) : Column := ⟨some (dirT n off), hei⟩

/-- Witness for C8 at the spec's boundary values: 50 items in a column of
height 50 show "All"; 15 items in height 5 (maxScroll 10) show "Top" at
offset 0, "Bot" at offset 10, and "50%" at offset 5. -/
theorem scroll_indicator_cases_witness :
    (getRightPart (fun _ => 0) toString (some (colT 50 0 50))).getLast? =
      some ⟨"All", ["scroll", "all"]⟩ ∧
    (getRightPart (fun _ => 0) toString (some (colT 15 0 5))).getLast? =
      some ⟨"Top", ["scroll", "top"]⟩ ∧
    (getRightPart (fun _ => 0) toString (some (colT 15 10 5))).getLast? =
      some ⟨"Bot", ["scroll", "bot"]⟩ ∧
    (getRightPart (fun _ => 0) toString (some (colT 15 5 5))).getLast? =
      some ⟨formatPercent 5 10, ["scroll", "percentage"]⟩ ∧
    formatPercent 5 10 = "50%" := by
  refine ⟨?_, ?_, ?_, ?_, ?_⟩
  · exact (scroll_indicator_cases (fun _ => 0) toString (colT 50 0 50)
      (dirT 50 0) (fsU 50) rfl rfl rfl).2.1 (by decide) (by decide)
  · exact (scroll_indicator_cases (fun _ => 0) toString (colT 15 0 5)
      (dirT 15 0) (fsU 15) rfl rfl rfl).2.2.1 (by decide) (by decide) rfl
  · exact (scroll_indicator_cases (fun _ => 0) toString (colT 15 10 5)
      (dirT 15 10) (fsU 15) rfl rfl rfl).2.2.2.1 (by decide) (by decide)
      (by decide) (by decide)
  · exact (scroll_indicator_cases (fun _ => 0) toString (colT 15 5 5)
      (dirT 15 5) (fsU 15) rfl rfl rfl).2.2.2.2.1 (by decide) (by decide)
      (by decide) (by decide)
  · exact (scroll_indicator_cases (fun _ => 0) toString (colT 15 5 5)
      (dirT 15 5) (fsU 15) rfl rfl rfl).2.2.2.2.2

/-- C9: when any items are marked, the right part starts with the
human-readable size — the full directory disk usage exactly when every
listed item is marked (the code's count comparison coincides with "all
marked" since `marked_items` is the marked sublist of the listing), else
the summed size of the marked plain files only — followed by " / N" with N
the marked-item count, the spacer, and the "Mrk" indicator. -/
theorem marked_items_summary (freeSpace : String → Nat) (hr : Nat → String)
    (c : Column) (t : DirTarget) (fs : List FileItem)
    (hc : c.target = some t) (ha : t.accessible = true) (hf : t.files = some fs)
    (hm : markedItems fs ≠ []) :
    getRightPart freeSpace hr (some c) =
      [⟨hr (if (markedItems fs).length = fs.length then t.disk_usage
            else sumMarkedSizes (markedItems fs)), []⟩,
       ⟨" / " ++ toString (markedItems fs).length, []⟩,
       ⟨"  ", ["space"]⟩, ⟨"Mrk", ["scroll", "marked"]⟩] ∧
    ((markedItems fs).length = fs.length ↔ ∀ f ∈ fs, f.marked = true) ∧
    sumMarkedSizes (markedItems fs) =
      ((fs.filter (fun f => f.is_file && f.marked)).map (·.size)).sum := by
  have hguard : ¬ (t.accessible = false ∨ (t.is_directory = true ∧ t.files = none)) := by
    simp [ha, hf]
  refine ⟨?_, ?_, ?_⟩
  · simp only [getRightPart, hc, if_neg hguard, hf, Option.getD_some]
    simp [hm, ha]
  · constructor
    · intro h a haa
      have hs : List.Sublist (fs.filter (·.marked)) fs := List.filter_sublist fs
      have he : fs.filter (·.marked) = fs := hs.eq_of_length h
      rw [← he] at haa
      exact List.of_mem_filter haa
    · intro h
      rw [markedItems, List.filter_eq_self.mpr h]
  · rw [sumMarkedSizes, markedItems, List.filter_filter]

/-- Five plain files of sizes 10..50, the first three marked. -/
def fsM : List FileItem :=
  [⟨10, true, true⟩, ⟨20, true, true⟩, ⟨30, true, true⟩,
   ⟨40, true, false⟩, ⟨50, true, false⟩]

/-- The same five files, all marked. -/
def fsMAll : List FileItem :=
  [⟨10, true, true⟩, ⟨20, true, true⟩, ⟨30, true, true⟩,
   ⟨40, true, true⟩, ⟨50, true, true⟩]

/-- Directory of `fsM` with total disk usage 999. -/
def dirM : DirTarget := ⟨true, true, some fsM, 0, 999, "/", none⟩

/-- Directory of `fsMAll` with total disk usage 999. -/
def dirMAll : DirTarget := ⟨true, true, some fsMAll, 0, 999, "/", none⟩

/-- Witness for C9: 3 of 5 marked files of sizes 10/20/30 yield "60" and
" / 3"; with all 5 marked the full disk usage 999 is shown instead. -/
theorem marked_items_summary_witness :
    getRightPart (fun _ => 0) toString (some ⟨some dirM, 5⟩) =
      [⟨"60", []⟩, ⟨" / 3", []⟩, ⟨"  ", ["space"]⟩,
       ⟨"Mrk", ["scroll", "marked"]⟩] ∧
    getRightPart (fun _ => 0) toString (some ⟨some dirMAll, 5⟩) =
      [⟨"999", []⟩, ⟨" / 5", []⟩, ⟨"  ", ["space"]⟩,
       ⟨"Mrk", ["scroll", "marked"]⟩] := by
  have h1 := marked_items_summary (fun _ => 0) toString ⟨some dirM, 5⟩
    dirM fsM rfl rfl rfl (by decide)
  have h2 := marked_items_summary (fun _ => 0) toString ⟨some dirMAll, 5⟩
    dirMAll fsMAll rfl rfl rfl (by decide)
  refine ⟨?_, ?_⟩
  · rw [h1.1]; decide
  · rw [h2.1]; decide
